/-
Verification of the 2DVelocityCorrelation repository against its
natural-language specification.

The development shallowly embeds the Python sources:
  * `src/velocitycorrelation2D/velocitycorrelation2D.py` (`velocity_corr`,
    `_validate_data_format`),
  * `src/velocitycorrelation2D/velutils.py` (`_gcd_fp`,
    `find_conversion_factor`, `square_input`, `rescale_positions`),
  * the call site in `src/calc_spiral_corr.py` (`process_file`).

Modelling conventions:
  * numpy float64 values are modelled as exact rationals (ℚ); NaN ("missing")
    is modelled with `Option`.  The correlation *score* of `velocity_corr`
    (a float produced by `np.nanmean` ratios) is not needed by any claim and
    is not modelled; only the three integer observation counts, the shift
    pipeline and the validation logic are.
  * pandas DataFrames are modelled as association lists from column names to
    value lists, or as typed row lists where the dtype checks of the source
    are subsumed by the Lean type (noted at each definition).
  * Python exceptions are modelled with `Except`: the error value records
    which `raise` statement fired, and an `Except.error` result carries no
    partial data.
-/
import Mathlib

namespace VelCorr

/-- A cell of the dense velocity field: `some (u, v)` for a present sample,
`none` for a NaN/missing cell.  This is the data model of `square_input`'s
output, where the two velocity components are present or missing together. -/
abbrev Cell := Option (ℚ × ℚ)

/-- A 2-dimensional array of `α`-cells, as produced and consumed by the numpy
code: `H` rows by `W` columns, with `cell i j` the entry at row `i` (the y
index), column `j` (the x index).  Values of `cell` outside the bounds are
irrelevant junk; every operation below reads only in-bounds entries. -/
structure Grid (α : Type) where
  H : Nat
  W : Nat
  cell : Nat → Nat → α

/-- A numpy ndarray argument of `velocity_corr`, which may have any shape:
the shape tuple together with the cell contents (meaningful when the shape is
`[H, W, 2]`, in which case the two panels of the last axis are the x- and
y-velocity, paired into one `Cell`). -/
structure NDData where
  shape : List Nat
  cell : Nat → Nat → Cell

/-- `velocitycorrelation2D.py`, `_validate_data_format`:
`data.ndim == 3 and data.shape[2] == 2`. -/
def validateDataFormat (shape : List Nat) : Bool :=
  shape.length == 3 && shape.getD 2 0 == 2

/-- `np.min(data.shape[:-1])`: the minimum over all axes but the last
(0 for a rank-≤1 array, where numpy would raise instead; `velocity_corr`
only evaluates this after `_validate_data_format` passed). -/
def minDims (shape : List Nat) : Nat :=
  match shape.dropLast with
  | [] => 0
  | a :: rest => rest.foldl min a

/-- `np.pad(data, ((p,p),(q,q),(0,0)), constant_values=np.nan)`: surround the
grid with `p` missing rows above and below and `q` missing columns on each
side. -/
def padGrid (p q : Nat) (g : Grid Cell) : Grid Cell :=
  ⟨g.H + 2 * p, g.W + 2 * q, fun i j =>
    if p ≤ i ∧ i < p + g.H ∧ q ≤ j ∧ j < q + g.W then g.cell (i - p) (j - q)
    else none⟩

/-- `np.roll(a, s, axis=0)`: the entry at row `i` of the result is the entry
at row `(i - s) mod H` of the input (numpy moves row `i` to row `i + s`,
wrapping around). -/
def rollRows (s : Int) (g : Grid Cell) : Grid Cell :=
  ⟨g.H, g.W, fun i j => g.cell (((i : Int) - s).emod (g.H : Int)).toNat j⟩

/-- `np.roll(a, s, axis=1)`: the entry at column `j` of the result is the
entry at column `(j - s) mod W` of the input. -/
def rollCols (s : Int) (g : Grid Cell) : Grid Cell :=
  ⟨g.H, g.W, fun i j => g.cell i (((j : Int) - s).emod (g.W : Int)).toNat⟩

/-- `a[p : H - p, q : W - q, :]`: strip `p` rows from each end and `q` columns
from each end. -/
def cropGrid (p q : Nat) (g : Grid Cell) : Grid Cell :=
  ⟨g.H - 2 * p, g.W - 2 * q, fun i j => g.cell (i + p) (j + q)⟩

/-- The shifted field `data_r` of `velocity_corr` for one orientation
`(x_or, y_or)`: pad by the absolute offsets, roll along axis 1 by `x_or`,
roll along axis 0 by `y_or`, then crop the padding back off (lines 61-69 of
`velocitycorrelation2D.py`). -/
def shiftPRC (xOr yOr : Int) (g : Grid Cell) : Grid Cell :=
  cropGrid yOr.natAbs xOr.natAbs
    (rollRows yOr (rollCols xOr (padGrid yOr.natAbs xOr.natAbs g)))

/-- The specification's description of the same shift: translate the field by
`(dx, dy)` so that the cell at `(i, j)` holds the original value at
`(i - dy, j - dx)`, with missing filled in whenever that source lies out of
bounds — never wrapping around an edge. -/
def shiftSpec (dx dy : Int) (g : Grid Cell) : Grid Cell :=
  ⟨g.H, g.W, fun i j =>
    if 0 ≤ (i : Int) - dy ∧ (i : Int) - dy < (g.H : Int) ∧
       0 ≤ (j : Int) - dx ∧ (j : Int) - dx < (g.W : Int) then
      g.cell ((i : Int) - dy).toNat ((j : Int) - dx).toNat
    else none⟩

/-- `np.einsum('ijk,ijk->ij', a, b)` at one cell: the dot product of the two
velocity vectors, NaN (`none`) as soon as either side is missing. -/
def dotCell (a b : Cell) : Option ℚ :=
  match a, b with
  | some (u, v), some (u', v') => some (u * u' + v * v')
  | _, _ => none

/-- The rounded diagonal component of the radius:
`np.round(radius * cos(pi/4))` = the integer nearest to `r·√2/2`.
Since `r·√2/2` is irrational for `r ≥ 1`, no tie-breaking is involved, and
`n` is nearest to `r·√2/2` iff `n - 1/2 < r·√2/2 < n + 1/2`, i.e. iff `n` is
the least natural with `r·√2 < 2n+1`, i.e. with `2r² < (2n+1)²`.  The search
is bounded by `r`, which always satisfies the test, so `getD` never falls
back to its default. -/
def diagOffset (r : Nat) : Nat :=
  (((List.range (r + 1)).find?
    (fun n => 2 * r * r < (2 * n + 1) * (2 * n + 1))).getD r : Nat)

/-- The eight orientation offsets `(xrad[k], yrad[k])`, `k = 0..7`, of
`velocity_corr`: `(round(r·cos kπ/4), round(r·sin kπ/4))`. -/
def offsets (r : Nat) : List (Int × Int) :=
  let d : Int := diagOffset r
  [((r : Int), 0), (d, d), (0, (r : Int)), (-d, d),
   (-(r : Int), 0), (-d, -d), (0, -(r : Int)), (d, -d)]

/-- `point_samples[i, j]` after the orientation loop of `velocity_corr`: the
number of orientations whose dot product `vxr[i, j]` with the shifted field
is non-NaN. -/
def pointSamples (g : Grid Cell) (r : Nat) (i j : Nat) : Nat :=
  ((offsets r).filter
    (fun od => (dotCell (g.cell i j) ((shiftPRC od.1 od.2 g).cell i j)).isSome)).length

/-- The three observation counts returned by `velocity_corr` (the float score
is not modelled; see the header comment). -/
structure VcResult where
  nObserved : Nat
  nGe4 : Nat
  nEq8 : Nat
deriving DecidableEq, Repr

/-- The error taxonomy of `velocity_corr`: `TypeError` for a bad shape, and
the two distinct `ValueError`s for a radius that is too small (< 1) or too
large (≥ min(n, m)). -/
inductive VcError where
  | typeError
  | radiusTooSmall
  | radiusTooLarge
deriving DecidableEq, Repr

/-- The bucket counts over `point_samples`:
`len(np.where(point_samples > 0)[0])`, `... >= 4 ...`, `... == 8 ...`. -/
def corrCounts (g : Grid Cell) (r : Nat) : VcResult :=
  let cells := Finset.range g.H ×ˢ Finset.range g.W
  ⟨(cells.filter (fun c => 0 < pointSamples g r c.1 c.2)).card,
   (cells.filter (fun c => 4 ≤ pointSamples g r c.1 c.2)).card,
   (cells.filter (fun c => pointSamples g r c.1 c.2 = 8)).card⟩

/-- `velocity_corr(data, radius_size)`: validate the shape (else `TypeError`),
validate the radius (two distinct `ValueError`s), then run the orientation
loop and return the observation counts. -/
def velocity_corr (d : NDData) (radius : Int) : Except VcError VcResult :=
  if ¬ validateDataFormat d.shape then .error .typeError
  else if radius < 1 then .error .radiusTooSmall
  else if (minDims d.shape : Int) ≤ radius then .error .radiusTooLarge
  else .ok (corrCounts ⟨d.shape.getD 0 0, d.shape.getD 1 0, d.cell⟩ radius.toNat)

/-- A fully-populated field of the given dimensions (no missing cells); the
velocity values are irrelevant to the observation counts, which only inspect
presence. -/
def fullField (h w : Nat) : NDData :=
  ⟨[h, w, 2], fun _ _ => some (1, 1)⟩

/-! ## `velutils.py` -/

/-- Exact division on ℚ written on cross-multiplied integers via
`Rat.divInt`, so that it kernel-reduces (Mathlib marks `Rat.inv`, hence `/`
on ℚ, `@[irreducible]`).  `pyDiv_eq` proves it equal to `/`. -/
def pyDiv (a b : ℚ) : ℚ :=
  Rat.divInt (a.num * b.den) (a.den * b.num)

theorem pyDiv_eq (a b : ℚ) : pyDiv a b = a / b := by
  unfold pyDiv
  by_cases hb : b = 0
  · subst hb
    simp
  · have hbn : (b.num : ℚ) ≠ 0 := by
      exact_mod_cast Rat.num_ne_zero.mpr hb
    have hden : ((a.den : ℚ) * (b.num : ℚ)) ≠ 0 := by
      refine mul_ne_zero ?_ hbn
      exact_mod_cast a.den_nz
    rw [Rat.divInt_eq_div]
    push_cast
    rw [div_eq_div_iff hden hb]
    calc (a.num : ℚ) * (b.den : ℚ) * b = (a.num : ℚ) * (b * (b.den : ℚ)) := by ring
      _ = (a.num : ℚ) * (b.num : ℚ) := by rw [Rat.mul_den_eq_num]
      _ = (a * (a.den : ℚ)) * (b.num : ℚ) := by rw [Rat.mul_den_eq_num]
      _ = a * ((a.den : ℚ) * (b.num : ℚ)) := by ring

/-- Python's float `%` (sign of the divisor), exactly on rationals:
`x % y = x - y*⌊x/y⌋` (`pyMod_eq_floor`).  `Rat.floor (pyDiv x y)` is used
rather than `⌊x / y⌋` so the definition kernel-reduces.  Python raises
`ZeroDivisionError` for `y = 0`; the callers below guard that case
explicitly, so the junk value this definition gives it is never used. -/
def pyMod (x y : ℚ) : ℚ :=
  x - y * (Rat.floor (pyDiv x y) : ℚ)

/-- Python's `abs` on floats, modelled exactly: `pyAbs q = |q|`
(`pyAbs_eq_abs`).  An explicit conditional is used instead of the lattice
`|·|` so the recursive definitions below kernel-reduce and generate their
equation lemmas cheaply. -/
def pyAbs (q : ℚ) : ℚ :=
  if q < 0 then -q else q

theorem pyAbs_eq_abs (q : ℚ) : pyAbs q = |q| := by
  unfold pyAbs
  split
  · next h => rw [abs_of_neg h]
  · next h => rw [abs_of_nonneg (not_lt.mp h)]

/-- Python's binary `min`, written as an explicit conditional (it equals
`min`, `pyMin_eq_min`) so that the definitions using it kernel-reduce. -/
def pyMin (a b : ℚ) : ℚ :=
  if a ≤ b then a else b

theorem pyMin_eq_min (a b : ℚ) : pyMin a b = min a b :=
  (min_def a b).symm

/-- Python 3's `round` to an integer: nearest integer, ties to even
(banker's rounding). -/
def roundHalfEven (q : ℚ) : ℤ :=
  if q - (Rat.floor q : ℚ) < 1/2 then Rat.floor q
  else if (1 : ℚ)/2 < q - (Rat.floor q : ℚ) then Rat.floor q + 1
  else if Rat.floor q % 2 = 0 then Rat.floor q else Rat.floor q + 1

/-- Python 3's `round(x, n)` for `n ≥ 0` decimal places (idealised to exact
rational arithmetic): round `x·10ⁿ` half-to-even and scale back. -/
def pyRound (q : ℚ) (n : Nat) : ℚ :=
  Rat.divInt (roundHalfEven (q * 10 ^ n)) (10 ^ n)

/-- Termination measure for the Euclidean loop of `_gcd_fp`: all iterates of
the pair live on the lattice `(1/lcm(x.den, y.den))·ℤ`, and `|y|` scaled onto
that lattice strictly decreases. -/
def gcdMeasure (x y : ℚ) : Nat :=
  (pyAbs y * (Nat.lcm x.den y.den : ℚ)).num.toNat

theorem den_dvd_of_int_mul (q : ℚ) (n : Nat) (hn : n ≠ 0) (z : Int)
    (h : q * (n : ℚ) = (z : ℚ)) : q.den ∣ n := by
  have hq : q = (z : ℚ) / ((n : Int) : ℚ) := by
    field_simp
    exact_mod_cast h
  have hd := Rat.den_dvd z (n : Int)
  rw [Rat.divInt_eq_div, ← hq] at hd
  exact_mod_cast hd

theorem exists_int_mul_of_den_dvd (q : ℚ) (n : Nat) (h : q.den ∣ n) :
    ∃ z : Int, q * (n : ℚ) = (z : ℚ) := by
  obtain ⟨c, hc⟩ := h
  refine ⟨q.num * c, ?_⟩
  subst hc
  push_cast
  rw [← mul_assoc, Rat.mul_den_eq_num]

theorem ratFloor_eq (q : ℚ) : Rat.floor q = ⌊q⌋ :=
  (Rat.floor_def' q).trans Rat.floor_def.symm

theorem pyMod_eq_floor (x y : ℚ) : pyMod x y = x - y * (⌊x / y⌋ : ℚ) := by
  rw [pyMod, pyDiv_eq, ratFloor_eq]

theorem pyMod_den_dvd (x y : ℚ) : (pyMod x y).den ∣ Nat.lcm x.den y.den := by
  obtain ⟨a, ha⟩ := exists_int_mul_of_den_dvd x _ (Nat.dvd_lcm_left x.den y.den)
  obtain ⟨b, hb⟩ := exists_int_mul_of_den_dvd y _ (Nat.dvd_lcm_right x.den y.den)
  apply den_dvd_of_int_mul _ _ (Nat.lcm_ne_zero x.den_nz y.den_nz)
    (a - ⌊x / y⌋ * b)
  push_cast
  rw [pyMod_eq_floor, sub_mul, mul_comm y, mul_assoc, ha, hb]

theorem abs_pyMod_lt (x : ℚ) {y : ℚ} (hy : y ≠ 0) : |pyMod x y| < |y| := by
  have h1 : pyMod x y = y * Int.fract (x / y) := by
    rw [pyMod_eq_floor, Int.fract, mul_sub, mul_div_cancel₀ _ hy]
  have h2 : |Int.fract (x / y)| = Int.fract (x / y) := abs_of_nonneg (Int.fract_nonneg _)
  rw [h1, abs_mul, h2]
  calc |y| * Int.fract (x / y) < |y| * 1 :=
        mul_lt_mul_of_pos_left (Int.fract_lt_one _) (abs_pos.mpr hy)
    _ = |y| := mul_one _

theorem abs_den_eq (q : ℚ) : |q|.den = q.den := by
  rcases abs_cases q with ⟨h, _⟩ | ⟨h, _⟩ <;> rw [h]
  rw [Rat.neg_den]

theorem gcdMeasure_decreasing (x y : ℚ) (hy : y ≠ 0) :
    gcdMeasure y (pyMod x y) < gcdMeasure x y := by
  have hLpos : 0 < Nat.lcm x.den y.den :=
    Nat.pos_of_ne_zero (Nat.lcm_ne_zero x.den_nz y.den_nz)
  have hL'L : Nat.lcm y.den (pyMod x y).den ∣ Nat.lcm x.den y.den :=
    Nat.lcm_dvd (Nat.dvd_lcm_right _ _) (pyMod_den_dvd x y)
  have habs1 : |pyMod x y|.den ∣ Nat.lcm y.den (pyMod x y).den := by
    rw [abs_den_eq]
    exact Nat.dvd_lcm_right _ _
  have habs2 : |y|.den ∣ Nat.lcm x.den y.den := by
    rw [abs_den_eq]
    exact Nat.dvd_lcm_right _ _
  obtain ⟨z', hz'⟩ :=
    exists_int_mul_of_den_dvd |pyMod x y| (Nat.lcm y.den (pyMod x y).den) habs1
  obtain ⟨z, hz⟩ := exists_int_mul_of_den_dvd |y| (Nat.lcm x.den y.den) habs2
  have hq : |pyMod x y| * (Nat.lcm y.den (pyMod x y).den : ℚ) <
      |y| * (Nat.lcm x.den y.den : ℚ) := by
    calc |pyMod x y| * (Nat.lcm y.den (pyMod x y).den : ℚ)
        ≤ |pyMod x y| * (Nat.lcm x.den y.den : ℚ) := by
          apply mul_le_mul_of_nonneg_left _ (abs_nonneg _)
          exact_mod_cast Nat.le_of_dvd hLpos hL'L
      _ < |y| * (Nat.lcm x.den y.den : ℚ) := by
          apply mul_lt_mul_of_pos_right (abs_pyMod_lt x hy)
          exact_mod_cast hLpos
  rw [hz', hz] at hq
  have hz'0 : (0 : ℚ) ≤ (z' : ℚ) := by
    rw [← hz']
    positivity
  have h1 : z' < z := by exact_mod_cast hq
  have h2 : (0 : Int) ≤ z' := by exact_mod_cast hz'0
  unfold gcdMeasure
  rw [pyAbs_eq_abs, pyAbs_eq_abs, hz', hz]
  simp only [Rat.num_intCast]
  omega

/-- The Euclidean iteration shared by `gcdLoop` and `gcdLoopClaim`:
`while not stop(x, y): x, y = y, x % y`, returning the final `x`.  The loop
is written with structural fuel so that it kernel-reduces; `euclidLoopAux_irrel`
proves the result independent of the fuel once the fuel exceeds
`gcdMeasure x y`, which `gcdMeasure_decreasing` shows strictly bounds the
number of iterations.  The `y = 0` test models Python's `ZeroDivisionError`
on `x % 0`; it is reachable only for a negative threshold, which no caller
uses (`stop` already fires for `y = 0` and a nonnegative threshold). -/
def euclidLoopAux (stop : ℚ → ℚ → Bool) : Nat → ℚ → ℚ → ℚ
  | 0, x, _ => x
  | (f + 1), x, y =>
    if stop x y then x
    else if y = 0 then 0
    else euclidLoopAux stop f y (pyMod x y)

theorem euclidLoopAux_irrel (stop : ℚ → ℚ → Bool) :
    ∀ (f g : Nat) (x y : ℚ), gcdMeasure x y < f → gcdMeasure x y < g →
      euclidLoopAux stop f x y = euclidLoopAux stop g x y := by
  intro f
  induction f with
  | zero => exact fun g x y hf => absurd hf (Nat.not_lt_zero _)
  | succ f ih =>
    intro g x y hf hg
    cases g with
    | zero => exact absurd hg (Nat.not_lt_zero _)
    | succ g =>
      simp only [euclidLoopAux]
      by_cases h1 : stop x y = true
      · rw [if_pos h1, if_pos h1]
      · rw [if_neg h1, if_neg h1]
        by_cases h2 : y = 0
        · rw [if_pos h2, if_pos h2]
        · rw [if_neg h2, if_neg h2]
          have hd := gcdMeasure_decreasing x y h2
          exact ih g y (pyMod x y) (by omega) (by omega)

/-- The Euclidean loop of `_gcd_fp` (`velutils.py` lines 37-38):
`while abs(y) > thr: x, y = y, x % y`, returning the final `x`.  The
threshold `thr` is FIXED over the whole loop. -/
def gcdLoop (thr x y : ℚ) : ℚ :=
  euclidLoopAux (fun _ b => pyAbs b ≤ thr) (gcdMeasure x y + 1) x y

/-- `_gcd_fp(x, y, rtol, atol, rnd)` of `velutils.py`: the tolerance
`m = min(abs(x), abs(y))` is computed once, up front, from the arguments;
the loop runs with the fixed threshold `rtol*m + atol`; the result is
rounded to `rnd` decimal places only when `rnd > 0`. -/
def gcd_fp (x y rtol atol : ℚ) (rnd : Int) : ℚ :=
  let m := pyMin (pyAbs x) (pyAbs y)
  let r := gcdLoop (rtol * m + atol) x y
  if 0 < rnd then pyRound r rnd.toNat else r

/-- The loop of `_gcd_fp` as claim C6 words it: the stopping test
`|y| ≤ rtol * min(|x|, |y|) + atol` recomputes the minimum from the CURRENT
iterates at every check (unlike the source, which fixes `m` before the
loop). -/
def gcdLoopClaim (rtol atol x y : ℚ) : ℚ :=
  euclidLoopAux (fun a b => pyAbs b ≤ rtol * pyMin (pyAbs a) (pyAbs b) + atol)
    (gcdMeasure x y + 1) x y

/-- `_gcd_fp` as claim C6 words it: the current-iterate stopping rule of
`gcdLoopClaim`, and the result rounded to `rnd` decimal places with only
`rnd < 0` disabling rounding (so `rnd = 0` rounds). -/
def gcd_fp_claim (x y rtol atol : ℚ) (rnd : Int) : ℚ :=
  let r := gcdLoopClaim rtol atol x y
  if 0 ≤ rnd then pyRound r rnd.toNat else r

theorem gcdLoop_stop (thr x y : ℚ) (h : pyAbs y ≤ thr) : gcdLoop thr x y = x := by
  unfold gcdLoop euclidLoopAux
  rw [if_pos (by exact decide_eq_true h)]

theorem gcdLoop_step (thr x y : ℚ) (h1 : ¬ pyAbs y ≤ thr) (h2 : y ≠ 0) :
    gcdLoop thr x y = gcdLoop thr y (pyMod x y) := by
  unfold gcdLoop
  conv_lhs => rw [euclidLoopAux]
  rw [if_neg (by simpa using h1), if_neg h2]
  exact euclidLoopAux_irrel _ _ _ _ _ (gcdMeasure_decreasing x y h2) (Nat.lt_succ_self _)

theorem gcdLoopClaim_stop (rtol atol x y : ℚ)
    (h : pyAbs y ≤ rtol * pyMin (pyAbs x) (pyAbs y) + atol) :
    gcdLoopClaim rtol atol x y = x := by
  unfold gcdLoopClaim euclidLoopAux
  rw [if_pos (by exact decide_eq_true h)]

theorem gcdLoopClaim_step (rtol atol x y : ℚ)
    (h1 : ¬ pyAbs y ≤ rtol * pyMin (pyAbs x) (pyAbs y) + atol)
    (h2 : y ≠ 0) : gcdLoopClaim rtol atol x y = gcdLoopClaim rtol atol y (pyMod x y) := by
  unfold gcdLoopClaim
  conv_lhs => rw [euclidLoopAux]
  rw [if_neg (by simpa using h1), if_neg h2]
  exact euclidLoopAux_irrel _ _ _ _ _ (gcdMeasure_decreasing x y h2) (Nat.lt_succ_self _)

/-- The per-axis GCD of `find_conversion_factor` (`velutils.py` lines 73-80):
subtract the column minimum from every value, seed with
`_gcd_fp(vals[0], vals[1], rnd=12)` (defaults `rtol=1e-05`, `atol=1e-10`),
then fold `_gcd_fp(candidate, vals[ix], rnd=12)` over the remaining values in
order.  A column with fewer than two values makes `coord_vals[1]` raise
`IndexError` (`none` here); `np.min` of the column is total on a nonempty
column. -/
def axisGcd (vals : List ℚ) : Option ℚ :=
  match vals with
  | v0 :: v1 :: rest =>
    let m := (v1 :: rest).foldl pyMin v0
    some ((rest.map (fun v => v - m)).foldl
      (fun c v => gcd_fp c v (1/10^5) (1/10^10) 12)
      (gcd_fp (v0 - m) (v1 - m) (1/10^5) (1/10^10) 12))
  | _ => none

/-- The failures of `find_conversion_factor`: the `ValueError` naming both
axis GCDs when they differ, and the `IndexError` from reading
`coord_vals[1]` on an axis with fewer than two values. -/
inductive FcfError where
  | scaleMismatch (gx gy : ℚ)
  | indexError
deriving DecidableEq, Repr

/-- `find_conversion_factor(in_df, xcoord_fea, ycoord_fea)` of `velutils.py`:
compute one GCD per axis independently via `axisGcd` (the dict iterates the
x column first, then the y column), compare the two with `!=` (exact
equality, no tolerance), raise the `ValueError` carrying both values when
they differ, and return the shared value otherwise.  The two columns are
passed as value lists in DataFrame row order. -/
def find_conversion_factor (xs ys : List ℚ) : Except FcfError ℚ :=
  match axisGcd xs, axisGcd ys with
  | some gx, some gy =>
    if gx ≠ gy then .error (.scaleMismatch gx gy) else .ok gx
  | _, _ => .error .indexError

/-- One row of `square_input`'s input DataFrame.  The validations of
`square_input` (all four named columns present, integer dtype and
non-negative values in the two position columns, no missing positions) are
subsumed by this Lean type: `x y : ℕ`, and the `replace({pd.NA: np.nan})`
normalisation makes both missing markers `none`. -/
structure SRow where
  x : Nat
  y : Nat
  u : Option ℚ
  v : Option ℚ

/-- The rows of the left-joined expanded frame matching grid key `(x, y)`. -/
def keyMatches (rows : List SRow) (x y : Nat) : List SRow :=
  rows.filter (fun r => r.x == x && r.y == y)

/-- Whether some `(x, y)` key occurs in two or more rows — exactly the
condition under which `DataFrame.pivot` raises
`ValueError: Index contains duplicate entries, cannot reshape`. -/
def hasDupKey (rows : List SRow) : Bool :=
  rows.any (fun r => 1 < (keyMatches rows r.x r.y).length)

/-- `np.max` over a list of naturals (total only on nonempty input, which
`square_input` guards). -/
def maxList : List Nat → Nat
  | [] => 0
  | a :: t => t.foldl max a

/-- The failures of `square_input` on a position-validated input: `np.max`
on an empty frame raises, and `pivot` raises on a duplicated `(x, y)` key. -/
inductive SqError where
  | emptyInput
  | duplicateIndex
deriving DecidableEq, Repr

/-- `square_input(in_df, ...)` of `velutils.py`, after its column/dtype
validations (subsumed by `SRow`): build the Cartesian product
`{0..max_x} × {0..max_y}`, left-join the input on `(x, y)`, pivot each
velocity column to a `(max_y+1) × (max_x+1)` array indexed `[y][x]` (rows
and columns sorted ascending), and stack the two arrays.  A duplicated
`(x, y)` key makes the joined frame carry two rows for one pivot cell, so
`pivot` raises (`duplicateIndex`).  With unique keys, the pivot cell at
`[y][x]` is the unique joined row for that key — `(NaN, NaN)` when the input
has no such row. -/
def square_input (rows : List SRow) : Except SqError (Grid (Option ℚ × Option ℚ)) :=
  match rows with
  | [] => .error .emptyInput
  | _ :: _ =>
    let maxX := maxList (rows.map SRow.x)
    let maxY := maxList (rows.map SRow.y)
    if hasDupKey rows then .error .duplicateIndex
    else .ok ⟨maxY + 1, maxX + 1, fun i j =>
      match rows.find? (fun r => r.x == j && r.y == i) with
      | some r => (r.u, r.v)
      | none => (none, none)⟩

/-- A pandas DataFrame for `rescale_positions`: an association list from
column name to the column's values in row order. -/
abbrev DFrame := List (String × List ℚ)

/-- Column access `df[c]` (`none` models the `KeyError` on a missing
column). -/
def getCol (df : DFrame) (name : String) : Option (List ℚ) :=
  (df.find? (fun p => p.1 == name)).map Prod.snd

/-- Column assignment `df[c] = vals` for an existing column `c` (the only
use below; `rescale_positions` reads each column before writing it). -/
def setCol (df : DFrame) (name : String) (vals : List ℚ) : DFrame :=
  df.map (fun p => if p.1 == name then (name, vals) else p)

/-- `v % 1` for a Python float: the fractional part `v - ⌊v⌋ ∈ [0, 1)`. -/
def pyFract (q : ℚ) : ℚ :=
  q - (Rat.floor q : ℚ)

/-- `.astype(np.int64)`: truncation toward zero. -/
def truncQ (q : ℚ) : Int :=
  if q < 0 then -(Rat.floor (-q)) else Rat.floor q

/-- One column pass of `rescale_positions`:
`new_df[c] = (new_df[c] - np.min(new_df[c])) / conversion_factor`
(`none` models the `ValueError` that `np.min` raises on an empty column). -/
def rescaleCol (vals : List ℚ) (factor : ℚ) : Option (List ℚ) :=
  match vals with
  | [] => none
  | a :: t =>
    let m := t.foldl pyMin a
    some ((a :: t).map (fun v => pyDiv (v - m) factor))

/-- The failures of `rescale_positions`: non-positive conversion factor,
missing coordinate column (`KeyError`), empty coordinate column (`np.min`
raises), and the cast-safety `ValueError` when a rescaled value is farther
than `TOL = 1e-5` from the integer below it. -/
inductive RpError where
  | nonPositiveFactor
  | missingColumn
  | emptyColumn
  | castError
deriving DecidableEq, Repr

/-- `rescale_positions(in_df, conversion_factor, xcoord_fea, ycoord_fea)` of
`velutils.py` (this is its full signature — it takes a single
`conversion_factor` and no step-size parameter): validate
`conversion_factor > 0`, copy the frame, rescale the x column then the y
column in place on the copy, check
`np.any(np.abs(new_df[[yc, xc]].values % 1) > TOL)` (`TOL = 1e-5`), and cast
both columns to `int64` by truncation.  The input frame is never written;
the result is built from the copy. -/
def rescale_positions (df : DFrame) (factor : ℚ) (xc yc : String) :
    Except RpError DFrame :=
  if factor ≤ 0 then .error .nonPositiveFactor
  else
    match getCol df xc with
    | none => .error .missingColumn
    | some xv =>
      match rescaleCol xv factor with
      | none => .error .emptyColumn
      | some xv' =>
        let df1 := setCol df xc xv'
        match getCol df1 yc with
        | none => .error .missingColumn
        | some yv =>
          match rescaleCol yv factor with
          | none => .error .emptyColumn
          | some yv' =>
            let df2 := setCol df1 yc yv'
            if ((getCol df2 yc).getD [] ++ (getCol df2 xc).getD []).any
                (fun v => (1 : ℚ)/10^5 < pyAbs (pyFract v)) then
              .error .castError
            else
              let df3 := setCol df2 xc
                (((getCol df2 xc).getD []).map (fun v => (truncQ v : ℚ)))
              .ok (setCol df3 yc
                (((getCol df3 yc).getD []).map (fun v => (truncQ v : ℚ))))

end VelCorr

deriving instance DecidableEq for Except

namespace VelCorr

/-- C1: For a fully-populated (no missing cells) 10x10 field, `velocity_corr`
with radius 1 returns observation counts `n_observed = 100`, `n_ge4 = 96`,
`n_eq8 = 64`, and with radius 9 returns `n_observed = 72`, `n_ge4 = 0`,
`n_eq8 = 0`. -/
theorem C1_counts_10x10_radius1_radius9 :
    velocity_corr (fullField 10 10) 1 = .ok ⟨100, 96, 64⟩ ∧
    velocity_corr (fullField 10 10) 9 = .ok ⟨72, 0, 0⟩ := by
  decide

/-- C2: whenever `velocity_corr` succeeds, the three returned counts satisfy
`n_eq8 ≤ n_ge4 ≤ n_observed`: they are threshold buckets (`== 8`, `>= 4`,
`> 0`) over the same per-cell `point_samples` array. -/
theorem C2_bucket_counts_monotone (d : NDData) (radius : Int) (res : VcResult)
    (h : velocity_corr d radius = .ok res) :
    res.nEq8 ≤ res.nGe4 ∧ res.nGe4 ≤ res.nObserved := by
  have hres : res = corrCounts ⟨d.shape.getD 0 0, d.shape.getD 1 0, d.cell⟩ radius.toNat := by
    unfold velocity_corr at h
    split at h
    · exact absurd h (by simp)
    · split at h
      · exact absurd h (by simp)
      · split at h
        · exact absurd h (by simp)
        · exact (Except.ok.injEq _ _ ▸ congrArg (fun x => x) h) ▸ (Except.ok.inj h).symm
  subst hres
  constructor
  · exact Finset.card_le_card (Finset.monotone_filter_right _ (fun c hc => by omega))
  · exact Finset.card_le_card (Finset.monotone_filter_right _ (fun c hc => by omega))

/-- Witness for C2 at a concrete field and radius: a fully-populated 2x2
field at radius 1 yields counts (4, 0, 0), and the theorem's inequalities
hold there. -/
theorem C2_bucket_counts_monotone_witness :
    (⟨4, 0, 0⟩ : VcResult).nEq8 ≤ (⟨4, 0, 0⟩ : VcResult).nGe4 ∧
    (⟨4, 0, 0⟩ : VcResult).nGe4 ≤ (⟨4, 0, 0⟩ : VcResult).nObserved :=
  C2_bucket_counts_monotone (fullField 2 2) 1 ⟨4, 0, 0⟩ (by decide)

/-- C3: for every orientation offset `(dx, dy)`, the pad-then-roll-then-crop
pipeline of `velocity_corr` produces exactly the field translated by
`(dx, dy)` with missing fill for out-of-bounds sources — the dimensions are
unchanged and no cell ever receives a value wrapped toroidally from the
opposite edge. -/
theorem C3_shift_equals_translation_no_wrap (g : Grid Cell) (dx dy : Int) :
    (shiftPRC dx dy g).H = g.H ∧ (shiftPRC dx dy g).W = g.W ∧
    ∀ i j, i < g.H → j < g.W →
      (shiftPRC dx dy g).cell i j = (shiftSpec dx dy g).cell i j := by
  refine ⟨by simp [shiftPRC, cropGrid, rollRows, rollCols, padGrid],
          by simp [shiftPRC, cropGrid, rollRows, rollCols, padGrid],
          fun i j hi hj => ?_⟩
  simp only [shiftPRC, cropGrid, rollRows, rollCols, padGrid, shiftSpec]
  have hrow : (((i + dy.natAbs : Nat) : Int) - dy).emod ((g.H + 2 * dy.natAbs : Nat) : Int)
      = ((i + dy.natAbs : Nat) : Int) - dy :=
    Int.emod_eq_of_lt (by omega) (by omega)
  have hcol : (((j + dx.natAbs : Nat) : Int) - dx).emod ((g.W + 2 * dx.natAbs : Nat) : Int)
      = ((j + dx.natAbs : Nat) : Int) - dx :=
    Int.emod_eq_of_lt (by omega) (by omega)
  rw [hrow, hcol]
  by_cases hb : 0 ≤ (i : Int) - dy ∧ (i : Int) - dy < (g.H : Int) ∧
      0 ≤ (j : Int) - dx ∧ (j : Int) - dx < (g.W : Int)
  · rw [if_pos hb, if_pos (by omega)]
    congr 1 <;> omega
  · rw [if_neg hb, if_neg (by omega)]

/-- Witness for C3 at a concrete 2x2 grid and offset (1, -1): the cell (0, 1)
of the pipeline output equals the cell of the direct translation. -/
theorem C3_shift_equals_translation_no_wrap_witness :
    (0 : Nat) < 2 ∧ (1 : Nat) < 2 ∧
    (shiftPRC 1 (-1) ⟨2, 2, fun i j => some ((i : ℚ), (j : ℚ))⟩).cell 0 1 =
      (shiftSpec 1 (-1) ⟨2, 2, fun i j => some ((i : ℚ), (j : ℚ))⟩).cell 0 1 :=
  ⟨by decide, by decide,
   (C3_shift_equals_translation_no_wrap ⟨2, 2, fun i j => some ((i : ℚ), (j : ℚ))⟩
      1 (-1)).2.2 0 1 (by decide) (by decide)⟩

/-- C4: `velocity_corr` fails with the type error whenever the field is not
rank-3 with third dimension 2; given a valid shape `[H, W, 2]` it fails with
one value error when `radius < 1` and with the other, distinct value error
when `radius ≥ min(H, W)`; every failure is an `Except.error`, which carries
no partial result. -/
theorem C4_validation_errors (d : NDData) (radius : Int) (hw : Nat × Nat) :
    (¬ (d.shape.length = 3 ∧ d.shape.getD 2 0 = 2) →
      velocity_corr d radius = .error .typeError) ∧
    (d.shape = [hw.1, hw.2, 2] → radius < 1 →
      velocity_corr d radius = .error .radiusTooSmall) ∧
    (d.shape = [hw.1, hw.2, 2] → 1 ≤ radius → (min hw.1 hw.2 : Int) ≤ radius →
      velocity_corr d radius = .error .radiusTooLarge) ∧
    (VcError.radiusTooSmall ≠ VcError.radiusTooLarge) ∧
    (∀ e res, velocity_corr d radius = .error e → velocity_corr d radius ≠ .ok res) := by
  refine ⟨fun hbad => ?_, fun hsh hr => ?_, fun hsh hr1 hr2 => ?_, by decide,
          fun e res he hok => by rw [he] at hok; exact Except.noConfusion hok⟩
  · rw [velocity_corr, if_pos]
    simp only [validateDataFormat, Bool.and_eq_true, beq_iff_eq]
    exact fun h => hbad ⟨h.1, h.2⟩
  · rw [velocity_corr, if_neg (by simp [validateDataFormat, hsh]), if_pos hr]
  · have hmin : minDims d.shape = min hw.1 hw.2 := by rw [hsh]; rfl
    rw [velocity_corr, if_neg (by simp [validateDataFormat, hsh]),
        if_neg (by omega), if_pos (by rw [hmin]; omega)]

/-- Witness for C4 at concrete inputs: a rank-2 array gives the type error,
radius 0 on a valid 3x3 field gives the small-radius error, and radius 3 on a
3x3 field gives the large-radius error. -/
theorem C4_validation_errors_witness :
    velocity_corr ⟨[2, 2], fun _ _ => none⟩ 1 = .error .typeError ∧
    velocity_corr (fullField 3 3) 0 = .error .radiusTooSmall ∧
    velocity_corr (fullField 3 3) 3 = .error .radiusTooLarge :=
  ⟨(C4_validation_errors ⟨[2, 2], fun _ _ => none⟩ 1 (0, 0)).1 (by decide),
   (C4_validation_errors (fullField 3 3) 0 (3, 3)).2.1 rfl (by decide),
   (C4_validation_errors (fullField 3 3) 3 (3, 3)).2.2.1 rfl (by decide) (by decide)⟩

theorem roundHalfEven_intCast (z : ℤ) : roundHalfEven (z : ℚ) = z := by
  unfold roundHalfEven
  simp only [ratFloor_eq, Int.floor_intCast]
  norm_num

theorem pyRound_int (z : ℤ) (n : ℕ) : pyRound (z : ℚ) n = (z : ℚ) := by
  unfold pyRound
  rw [show ((z : ℚ) * 10^n) = ((z * 10^n : ℤ) : ℚ) by push_cast; ring,
      roundHalfEven_intCast, Rat.divInt_eq_div]
  push_cast
  rw [mul_div_assoc, div_self (by positivity), mul_one]

theorem eval_gcd_fp_A_src :
    gcd_fp ((10^9+1 : ℚ)/10^9) (1/1000) (1/10^5) (1/10^10) (-1) = 1/1000 := by
  have hm : pyMin (pyAbs ((10^9+1 : ℚ)/10^9)) (pyAbs ((1:ℚ)/1000)) = 1/1000 := by
    norm_num [pyMin, pyAbs]
  have hpy1 : pyMod ((10^9+1 : ℚ)/10^9) (1/1000) = 1/10^9 := by
    rw [pyMod_eq_floor]
    norm_num
  simp only [gcd_fp]
  rw [hm, if_neg (by norm_num),
      show (1:ℚ)/10^5 * (1/1000) + 1/10^10 = 101/10^10 by norm_num,
      gcdLoop_step _ _ _ (by norm_num [pyAbs]) (by norm_num), hpy1,
      gcdLoop_stop _ _ _ (by norm_num [pyAbs])]

theorem eval_gcd_fp_A_claim :
    gcd_fp_claim ((10^9+1 : ℚ)/10^9) (1/1000) (1/10^5) (1/10^10) (-1) = 1/10^9 := by
  have hpy1 : pyMod ((10^9+1 : ℚ)/10^9) (1/1000) = 1/10^9 := by
    rw [pyMod_eq_floor]
    norm_num
  have hpy2 : pyMod ((1:ℚ)/1000) (1/10^9) = 0 := by
    rw [pyMod_eq_floor]
    norm_num
  simp only [gcd_fp_claim]
  rw [if_neg (by norm_num),
      gcdLoopClaim_step _ _ _ _ (by norm_num [pyAbs, pyMin]) (by norm_num), hpy1,
      gcdLoopClaim_step _ _ _ _ (by norm_num [pyAbs, pyMin]) (by norm_num), hpy2,
      gcdLoopClaim_stop _ _ _ _ (by norm_num [pyAbs, pyMin])]

theorem eval_gcd_fp_B_src :
    gcd_fp (1/2 : ℚ) (1/4) (1/10^5) (1/10^10) 0 = 1/4 := by
  have hm : pyMin (pyAbs (1/2 : ℚ)) (pyAbs ((1:ℚ)/4)) = 1/4 := by
    norm_num [pyMin, pyAbs]
  have hpy : pyMod (1/2 : ℚ) (1/4) = 0 := by
    rw [pyMod_eq_floor]
    norm_num
  simp only [gcd_fp]
  rw [hm, if_neg (by norm_num),
      show (1:ℚ)/10^5 * (1/4) + 1/10^10 = 25001/10^10 by norm_num,
      gcdLoop_step _ _ _ (by norm_num [pyAbs]) (by norm_num), hpy,
      gcdLoop_stop _ _ _ (by norm_num [pyAbs])]

theorem eval_gcd_fp_B_claim :
    gcd_fp_claim (1/2 : ℚ) (1/4) (1/10^5) (1/10^10) 0 = 0 := by
  have hpy : pyMod (1/2 : ℚ) (1/4) = 0 := by
    rw [pyMod_eq_floor]
    norm_num
  have hround : roundHalfEven ((1/4 : ℚ) * 10 ^ (0 : ℕ)) = 0 := by
    unfold roundHalfEven
    simp only [ratFloor_eq]
    norm_num
  simp only [gcd_fp_claim]
  rw [gcdLoopClaim_step _ _ _ _ (by norm_num [pyAbs, pyMin]) (by norm_num), hpy,
      gcdLoopClaim_stop _ _ _ _ (by norm_num [pyAbs, pyMin]), if_pos (by norm_num)]
  show pyRound (1/4 : ℚ) 0 = 0
  unfold pyRound
  rw [hround]
  rw [Rat.divInt_eq_div]
  norm_num

/-- C6 counterexample: the claim's reading of `_gcd_fp` (minimum recomputed
from the current iterates; rounding for every `rnd ≥ 0`) disagrees with the
source at two concrete inputs.  At `x = 1 + 10⁻⁹`, `y = 10⁻³` (defaults,
`rnd = -1`) the source stops at the fixed threshold and returns `10⁻³` while
the claim's loop keeps iterating and returns `10⁻⁹`; at `x = 1/2`, `y = 1/4`
with `rnd = 0` the source does not round (returns `1/4`) while the claim's
reading rounds to 0 decimal places (returns `0`). -/
theorem C6_counterexample_gcd_fp :
    gcd_fp_claim ((10^9+1 : ℚ)/10^9) (1/1000) (1/10^5) (1/10^10) (-1) ≠
      gcd_fp ((10^9+1 : ℚ)/10^9) (1/1000) (1/10^5) (1/10^10) (-1) ∧
    gcd_fp_claim (1/2 : ℚ) (1/4) (1/10^5) (1/10^10) 0 ≠
      gcd_fp (1/2 : ℚ) (1/4) (1/10^5) (1/10^10) 0 := by
  constructor
  · rw [eval_gcd_fp_A_claim, eval_gcd_fp_A_src]
    norm_num
  · rw [eval_gcd_fp_B_claim, eval_gcd_fp_B_src]
    norm_num

/-- C6 (amended): `_gcd_fp(x, y, rtol, atol, rnd)` computes
`m = min(|x|, |y|)` once from the initial arguments, iterates
`x, y = y, x % y` until `|y| ≤ rtol*m + atol` with that fixed threshold
(the loop satisfying the stated while-loop recurrence), and returns the
final `x`, rounded to `rnd` decimal places only when `rnd > 0` (so `rnd ≤ 0`,
including `rnd = 0`, disables rounding). -/
theorem C6_gcd_fp_amended (x y rtol atol : ℚ) (rnd : Int) :
    gcd_fp x y rtol atol rnd =
      (if 0 < rnd then
        pyRound (gcdLoop (rtol * pyMin (pyAbs x) (pyAbs y) + atol) x y) rnd.toNat
      else gcdLoop (rtol * pyMin (pyAbs x) (pyAbs y) + atol) x y) ∧
    (∀ thr a b, pyAbs b ≤ thr → gcdLoop thr a b = a) ∧
    (∀ thr a b, ¬ pyAbs b ≤ thr → b ≠ 0 →
      gcdLoop thr a b = gcdLoop thr b (pyMod a b)) :=
  ⟨rfl, gcdLoop_stop, gcdLoop_step⟩

/-- Witness for C6 at concrete inputs: the loop recurrence steps of
`gcdLoop` evaluated at `(5, 1/2)` with thresholds `1` (stop) and `1/10`
(iterate). -/
theorem C6_gcd_fp_amended_witness :
    pyAbs (1/2 : ℚ) ≤ 1 ∧ gcdLoop 1 5 (1/2 : ℚ) = 5 ∧
    ¬ pyAbs (1/2 : ℚ) ≤ 1/10 ∧ (1/2 : ℚ) ≠ 0 ∧
    gcdLoop (1/10 : ℚ) 5 (1/2) = gcdLoop (1/10) (1/2) (pyMod 5 (1/2)) :=
  ⟨by norm_num [pyAbs],
   (C6_gcd_fp_amended 0 0 0 0 0).2.1 1 5 (1/2) (by norm_num [pyAbs]),
   by norm_num [pyAbs], by norm_num,
   (C6_gcd_fp_amended 0 0 0 0 0).2.2 (1/10) 5 (1/2) (by norm_num [pyAbs]) (by norm_num)⟩

theorem eval_gcd_fp_0_2 : gcd_fp (0 : ℚ) 2 (1/10^5) (1/10^10) 12 = 2 := by
  have hpy : pyMod (0 : ℚ) 2 = 0 := by
    rw [pyMod_eq_floor]
    norm_num
  simp only [gcd_fp]
  rw [show (1/10^5 : ℚ) * pyMin (pyAbs 0) (pyAbs 2) + 1/10^10 = 1/10^10 by
        norm_num [pyMin, pyAbs],
      if_pos (by norm_num),
      gcdLoop_step _ _ _ (by norm_num [pyAbs]) (by norm_num), hpy,
      gcdLoop_stop _ _ _ (by norm_num [pyAbs])]
  exact_mod_cast pyRound_int 2 12

theorem eval_gcd_fp_0_3 : gcd_fp (0 : ℚ) 3 (1/10^5) (1/10^10) 12 = 3 := by
  have hpy : pyMod (0 : ℚ) 3 = 0 := by
    rw [pyMod_eq_floor]
    norm_num
  simp only [gcd_fp]
  rw [show (1/10^5 : ℚ) * pyMin (pyAbs 0) (pyAbs 3) + 1/10^10 = 1/10^10 by
        norm_num [pyMin, pyAbs],
      if_pos (by norm_num),
      gcdLoop_step _ _ _ (by norm_num [pyAbs]) (by norm_num), hpy,
      gcdLoop_stop _ _ _ (by norm_num [pyAbs])]
  exact_mod_cast pyRound_int 3 12

theorem eval_axisGcd_0_2 : axisGcd [(0 : ℚ), 2] = some 2 := by
  simp only [axisGcd, List.foldl, List.map]
  norm_num [pyMin]
  exact eval_gcd_fp_0_2

theorem eval_axisGcd_0_3 : axisGcd [(0 : ℚ), 3] = some 3 := by
  simp only [axisGcd, List.foldl, List.map]
  norm_num [pyMin]
  exact eval_gcd_fp_0_3

/-- C5: `find_conversion_factor` computes one GCD per axis independently
(`axisGcd`: min-subtracted values, seeded with the first two, folded
pairwise in order), compares the two axis GCDs with exact equality, fails
with the error identifying both values when they differ — never averaging
or picking one — and returns the shared value when they agree. -/
theorem C5_find_conversion_factor (xs ys : List ℚ) (gx gy : ℚ)
    (hx : axisGcd xs = some gx) (hy : axisGcd ys = some gy) :
    (gx ≠ gy → find_conversion_factor xs ys = .error (.scaleMismatch gx gy)) ∧
    (gx = gy → find_conversion_factor xs ys = .ok gx) := by
  unfold find_conversion_factor
  rw [hx, hy]
  constructor
  · intro h
    show (if gx ≠ gy then (.error (.scaleMismatch gx gy) : Except FcfError ℚ)
      else .ok gx) = _
    rw [if_pos h]
  · intro h
    show (if gx ≠ gy then (.error (.scaleMismatch gx gy) : Except FcfError ℚ)
      else .ok gx) = _
    rw [if_neg (by simpa using h)]

/-- Witness for C5: the x column `[0, 2]` has axis GCD 2 and the y column
`[0, 3]` has axis GCD 3, so `find_conversion_factor` fails naming both; with
`[0, 2]` on both axes it returns the shared value 2. -/
theorem C5_find_conversion_factor_witness :
    find_conversion_factor [(0 : ℚ), 2] [(0 : ℚ), 3] =
      .error (.scaleMismatch 2 3) ∧
    find_conversion_factor [(0 : ℚ), 2] [(0 : ℚ), 2] = .ok 2 :=
  ⟨(C5_find_conversion_factor _ _ 2 3 eval_axisGcd_0_2 eval_axisGcd_0_3).1 (by norm_num),
   (C5_find_conversion_factor _ _ 2 2 eval_axisGcd_0_2 eval_axisGcd_0_2).2 rfl⟩

theorem find?_eq_of_mem_of_unique (p : SRow → Bool) (rows : List SRow) (r : SRow)
    (hr : r ∈ rows) (hp : p r = true) (hcount : (rows.filter p).length ≤ 1) :
    rows.find? p = some r := by
  induction rows with
  | nil => cases hr
  | cons a t ih =>
    by_cases ha : p a = true
    · rw [List.find?_cons_of_pos _ ha]
      rcases List.mem_cons.mp hr with h | h
      · rw [h]
      · exfalso
        have h1 : r ∈ t.filter p := List.mem_filter.mpr ⟨h, hp⟩
        have h2 : (List.filter p (a :: t)).length = (t.filter p).length + 1 := by
          rw [List.filter_cons_of_pos ha]
          rfl
        have h3 : 0 < (t.filter p).length :=
          List.length_pos.mpr (List.ne_nil_of_mem h1)
        omega
    · rw [List.find?_cons_of_neg _ ha]
      have hrt : r ∈ t := by
        rcases List.mem_cons.mp hr with h | h
        · subst h
          exact absurd hp ha
        · exact h
      refine ih hrt ?_
      rwa [List.filter_cons_of_neg ha] at hcount

/-- C8: on a nonempty input with valid (typed) non-negative integer
positions and no duplicate `(x, y)` key, `square_input` succeeds with an
array of shape `(max_y+1, max_x+1, 2)` in which cell `[y][x]` holds exactly
the `(u, v)` velocities of the sample at grid coordinate `(x, y)` when one
exists and `(NaN, NaN)` otherwise — so every cell of the rectangle
`{0..max_x} × {0..max_y}` has an entry. -/
theorem C8_square_input_dense (rows : List SRow) (hne : rows ≠ [])
    (hnd : hasDupKey rows = false) :
    ∃ g, square_input rows = .ok g ∧
      g.H = maxList (rows.map SRow.y) + 1 ∧
      g.W = maxList (rows.map SRow.x) + 1 ∧
      (∀ r ∈ rows, g.cell r.y r.x = (r.u, r.v)) ∧
      (∀ i j, (∀ r ∈ rows, ¬ (r.x = j ∧ r.y = i)) → g.cell i j = (none, none)) := by
  have hcnt : ∀ r ∈ rows, (keyMatches rows r.x r.y).length ≤ 1 := by
    intro r hr
    have h := List.any_eq_false.mp hnd r hr
    simpa using h
  obtain ⟨a, t, rfl⟩ : ∃ a t, rows = a :: t := by
    cases rows with
    | nil => exact absurd rfl hne
    | cons a t => exact ⟨a, t, rfl⟩
  refine ⟨⟨maxList ((a :: t).map SRow.y) + 1, maxList ((a :: t).map SRow.x) + 1,
      fun i j =>
        match (a :: t).find? (fun r => r.x == j && r.y == i) with
        | some r => (r.u, r.v)
        | none => (none, none)⟩, ?_, rfl, rfl, ?_, ?_⟩
  · simp only [square_input]
    rw [if_neg (by simp [hnd])]
  · intro r hr
    have hfind := find?_eq_of_mem_of_unique
      (fun r' => r'.x == r.x && r'.y == r.y) (a :: t) r hr (by simp) (hcnt r hr)
    simp only []
    rw [hfind]
  · intro i j hnone
    have hfind : (a :: t).find? (fun r => r.x == j && r.y == i) = none := by
      rw [List.find?_eq_none]
      intro r hr h
      exact hnone r hr (by simpa using h)
    simp only []
    rw [hfind]

/-- The four-sample 2x2 example of C8's sources (integer-valued velocities,
one of them missing). -/
def c8rows : List SRow :=
  [⟨0, 0, some 1, some 2⟩, ⟨1, 0, some 3, none⟩,
   ⟨0, 1, none, some 4⟩, ⟨1, 1, some 5, some 6⟩]

/-- Witness for C8 at the concrete 2x2 input. -/
theorem C8_square_input_dense_witness :
    ∃ g, square_input c8rows = .ok g ∧
      g.H = maxList (c8rows.map SRow.y) + 1 ∧
      g.W = maxList (c8rows.map SRow.x) + 1 ∧
      (∀ r ∈ c8rows, g.cell r.y r.x = (r.u, r.v)) ∧
      (∀ i j, (∀ r ∈ c8rows, ¬ (r.x = j ∧ r.y = i)) → g.cell i j = (none, none)) :=
  C8_square_input_dense c8rows (by simp [c8rows]) (by decide)

/-- C10: an input that passes `square_input`'s column and position
validations (typed here) but contains two or more rows with the same
`(x, y)` key makes `square_input` fail with the duplicate-index error that
pandas `pivot` raises — no last-write-wins or other silent resolution. -/
theorem C10_square_input_duplicate_key (rows : List SRow) (hne : rows ≠ [])
    (hd : hasDupKey rows = true) :
    square_input rows = .error .duplicateIndex := by
  obtain ⟨a, t, rfl⟩ : ∃ a t, rows = a :: t := by
    cases rows with
    | nil => exact absurd rfl hne
    | cons a t => exact ⟨a, t, rfl⟩
  simp only [square_input]
  rw [if_pos hd]

/-- A table with two rows sharing the key `(0, 0)`. -/
def c10rows : List SRow :=
  [⟨0, 0, some 1, some 1⟩, ⟨1, 0, some 2, some 2⟩, ⟨0, 0, some 3, some 3⟩]

/-- Witness for C10 at a concrete duplicated input. -/
theorem C10_square_input_duplicate_key_witness :
    square_input c10rows = .error .duplicateIndex :=
  C10_square_input_duplicate_key c10rows (by simp [c10rows]) (by decide)

theorem getCol_setCol_ne (df : DFrame) (name c : String) (vals : List ℚ)
    (h : c ≠ name) : getCol (setCol df name vals) c = getCol df c := by
  have hnamec : (name == c) = false := by simp [Ne.symm h]
  induction df with
  | nil => rfl
  | cons p t ih =>
    show getCol ((if p.1 == name then (name, vals) else p) :: setCol t name vals) c = _
    by_cases hp : (p.1 == name) = true
    · have hp1 : p.1 = name := by simpa using hp
      have hpc : (p.1 == c) = false := by simp [hp1, Ne.symm h]
      rw [if_pos hp]
      unfold getCol
      simp only [List.find?, hnamec, hpc]
      exact ih
    · rw [if_neg hp]
      unfold getCol
      simp only [List.find?]
      by_cases hpc : (p.1 == c) = true
      · simp only [hpc]
      · simp only [Bool.not_eq_true] at hpc
        simp only [hpc]
        exact ih

/-- C9: whenever `rescale_positions` succeeds, every column of the returned
frame other than the two named coordinate columns is identical to the
input's.  The input frame itself is never written: the source copies the
frame (`in_df.copy()`) and assigns only columns of the copy, which the pure
embedding reflects by building the result with `setCol` on a new value while
the argument `df` is untouched. -/
theorem C9_rescale_positions_frame (df : DFrame) (factor : ℚ) (xc yc : String)
    (out : DFrame) (h : rescale_positions df factor xc yc = .ok out) :
    ∀ c, c ≠ xc → c ≠ yc → getCol out c = getCol df c := by
  intro c hcx hcy
  unfold rescale_positions at h
  simp only [] at h
  split at h
  · exact absurd h (by simp)
  · split at h
    · exact absurd h (by simp)
    · split at h
      · exact absurd h (by simp)
      · split at h
        · exact absurd h (by simp)
        · split at h
          · exact absurd h (by simp)
          · split at h
            · exact absurd h (by simp)
            · rw [← Except.ok.inj h]
              rw [getCol_setCol_ne _ _ _ _ hcy, getCol_setCol_ne _ _ _ _ hcx,
                  getCol_setCol_ne _ _ _ _ hcy, getCol_setCol_ne _ _ _ _ hcx]

/-- Witness for C9: a frame with a velocity column `u [px/frame]` next to the
two coordinate columns; after rescaling by `3/2` the velocity column of the
output equals the input's. -/
theorem C9_rescale_positions_frame_witness :
    getCol [("u [px/frame]", [(5:ℚ), 7]), ("x [px]", [0, 1]), ("y [px]", [0, 0])]
      "u [px/frame]" =
    getCol [("u [px/frame]", [(5:ℚ), 7]), ("x [px]", [2, 7/2]), ("y [px]", [1, 1])]
      "u [px/frame]" := by
  have heval : rescale_positions
      [("u [px/frame]", [(5:ℚ), 7]), ("x [px]", [2, 7/2]), ("y [px]", [1, 1])]
      (3/2) "x [px]" "y [px]" =
      .ok [("u [px/frame]", [(5:ℚ), 7]), ("x [px]", [0, 1]), ("y [px]", [0, 0])] := by
    have s1 : ("x [px]" == "y [px]") = false := by decide
    have s2 : ("y [px]" == "x [px]") = false := by decide
    have s3 : ("x [px]" == "x [px]") = true := by decide
    have s4 : ("y [px]" == "y [px]") = true := by decide
    have s5 : ("u [px/frame]" == "x [px]") = false := by decide
    have s6 : ("u [px/frame]" == "y [px]") = false := by decide
    have e1 : ¬("y [px]" = "x [px]") := by decide
    have e2 : ¬("x [px]" = "y [px]") := by decide
    have e3 : ¬("u [px/frame]" = "x [px]") := by decide
    have e4 : ¬("u [px/frame]" = "y [px]") := by decide
    norm_num [rescale_positions, getCol, setCol, rescaleCol, List.find?, pyMin,
      pyDiv_eq, pyFract, truncQ, ratFloor_eq, List.foldl, List.map, List.any,
      pyAbs, s1, s2, s3, s4, s5, s6, e1, e2, e3, e4]
  exact C9_rescale_positions_frame _ (3/2) "x [px]" "y [px]" _ heval
    "u [px/frame]" (by decide) (by decide)

/-- C7 (supporting evaluation): `rescale_positions` as it exists in
`velutils.py` takes a single `conversion_factor` and no step-size parameter;
applied to the claim's coordinate values `{2, 3.5, 5, 6.5}` (and y values
`{1, 1, 2.5, 2.5}`) with the two factors combined multiplicatively BY THE
CALLER into `3 * 0.5 = 1.5`, it returns the integer positions `{0, 1, 2, 3}`
(and `{0, 0, 1, 1}`).  The alternate two-parameter call form the claim
describes does not exist: `process_file` in `calc_spiral_corr.py` calls
`rescale_positions(raw_data, px_step_size, px_unit_conversion=...)`, which
raises `TypeError` because the function accepts no such keyword. -/
theorem C7_rescale_positions_combined_factor :
    rescale_positions
      [("x [px]", [2, 7/2, 5, 13/2]), ("y [px]", [1, 1, 5/2, 5/2])] (3 * (1/2))
      "x [px]" "y [px]" =
    .ok [("x [px]", [0, 1, 2, 3]), ("y [px]", [0, 0, 1, 1])] := by
  have s1 : ("x [px]" == "y [px]") = false := by decide
  have s2 : ("y [px]" == "x [px]") = false := by decide
  have s3 : ("x [px]" == "x [px]") = true := by decide
  have s4 : ("y [px]" == "y [px]") = true := by decide
  have e1 : ¬("y [px]" = "x [px]") := by decide
  have e2 : ¬("x [px]" = "y [px]") := by decide
  norm_num [rescale_positions, getCol, setCol, rescaleCol, List.find?, pyMin,
    pyDiv_eq, pyFract, truncQ, ratFloor_eq, List.foldl, List.map, List.any, pyAbs,
    s1, s2, s3, s4, e1, e2]

end VelCorr
